import Mathlib

/-!
Verification development for the probekit evaluation and regression engine.

The data model mirrors frontend/src/types/index.ts.  The regression
comparator, run orchestrator and evaluators live in the backend of the
repository, which is not part of the frontend sources; those operations are
modelled from the specification (sections 3, 4.1, 4.2, 4.3 and 8) and each
such definition is marked with a doc comment beginning with the words
Modelled from the spec.
-/

namespace Probekit

/-- Run lifecycle states, from EvaluationRun.status in
frontend/src/types/index.ts (pending, running, completed, failed). -/
inductive RunStatus where
  | pending
  | running
  | completed
  | failed
  deriving DecidableEq

/-- Model configuration, from ModelConfig in frontend/src/types/index.ts. -/
structure ModelConfig where
  model_id : String
  temperature : ℚ
  max_tokens : ℕ
  deriving DecidableEq

/-- A human label on an output, from the record shape in
frontend/src/types/index.ts (id, annotation_type, label, notes). -/
structure AnnotationRecord where
  id : String
  annotation_type : String
  label : String
  notes : Option String
  deriving DecidableEq

/-- An automated evaluator verdict, from EvaluatorResult in
frontend/src/types/index.ts and section 3 of the specification: passed is
tri-state, score is a rational in the unit interval or null, details is a
structured payload and reasoning a human-readable string. -/
structure EvaluatorResult where
  evaluator_name : String
  passed : Option Bool
  score : Option ℚ
  details : List (String × String)
  reasoning : String
  deriving DecidableEq

/-- One model response for one test case of one run, from EvaluationOutput in
frontend/src/types/index.ts.  The annotations field is optional because the
frontend guards against it being absent at runtime. -/
structure EvaluationOutput where
  id : String
  test_case_id : String
  model : String
  model_response : Option String
  error : Option String
  evaluator_results : List EvaluatorResult
  annotations : Option (List AnnotationRecord)
  deriving DecidableEq

/-- An evaluation run, from EvaluationRun in frontend/src/types/index.ts.
Timestamps are modelled as natural numbers ordered as the dates are. -/
structure EvaluationRun where
  id : String
  prompt_version : String
  status : RunStatus
  timestamp : ℕ
  outputs : List EvaluationOutput
  deriving DecidableEq

/-- Modelled from the spec: all evaluator results recorded on a run for one
evaluator name (section 4.3 rate computation is per evaluator name). -/
def resultsFor (r : EvaluationRun) (name : String) : List EvaluatorResult :=
  r.outputs.flatMap fun o =>
    o.evaluator_results.filter fun er => decide (er.evaluator_name = name)

/-- Modelled from the spec: the percentage of evaluator results with
passed = true over the total scored outputs for the named evaluator
(section 4.3). -/
def passRate (r : EvaluationRun) (name : String) : ℚ :=
  let rs := resultsFor r name
  100 * ((rs.filter fun er => decide (er.passed = some true)).length : ℚ) /
    (rs.length : ℚ)

/-- The evaluator names present in a run's outputs. -/
def evaluatorNames (r : EvaluationRun) : List String :=
  (r.outputs.flatMap fun o => o.evaluator_results.map (·.evaluator_name)).dedup

/-- A per-evaluator regression delta, from EvaluatorRegressionDelta in
frontend/src/types/index.ts. -/
structure EvaluatorDelta where
  evaluator_name : String
  current_rate : ℚ
  previous_rate : ℚ
  delta : ℚ
  regressed : Bool
  deriving DecidableEq

/-- Modelled from the spec: delta = current_rate minus previous_rate, and
regressed exactly when delta is at most minus the threshold, so a drop whose
magnitude exactly equals the threshold counts as regressed (section 4.3). -/
def mkEvaluatorDelta (name : String) (current previous threshold : ℚ) :
    EvaluatorDelta :=
  { evaluator_name := name
    current_rate := current
    previous_rate := previous
    delta := current - previous
    regressed := decide (current - previous ≤ -threshold) }

/-- Modelled from the spec: the most recent completed run for a prompt
version, ordered by timestamp descending (section 4.3). -/
def latestCompletedRun (runs : List EvaluationRun) (v : String) :
    Option EvaluationRun :=
  (runs.filter fun r =>
    decide (r.status = RunStatus.completed ∧ r.prompt_version = v)).argmax
    (·.timestamp)

/-- Result of the explicit two-version comparison: either the structured
insufficient-data value or the per-evaluator deltas. -/
inductive ComparisonResult where
  | error (msg : String)
  | ok (deltas : List EvaluatorDelta) (has_regression : Bool)
  deriving DecidableEq

/-- Modelled from the spec: compare(baselineVersion, currentVersion,
threshold).  Resolves the most recent completed run of each version; if
either is missing it returns the structured error value "insufficient data"
rather than failing.  Otherwise it computes one delta per evaluator name
present in both runs (section 4.3). -/
def compareVersions (runs : List EvaluationRun)
    (baseline current : String) (threshold : ℚ) : ComparisonResult :=
  match latestCompletedRun runs baseline, latestCompletedRun runs current with
  | some b, some c =>
      let names := (evaluatorNames c).filter fun n => (evaluatorNames b).contains n
      let deltas := names.map fun n =>
        mkEvaluatorDelta n (passRate c n) (passRate b n) threshold
      ComparisonResult.ok deltas (deltas.any (·.regressed))
  | _, _ => ComparisonResult.error "insufficient data"

/-- Modelled from the spec: the completed runs sharing a run's prompt
version that strictly precede it in timestamp order (section 4.3, implicit
per-run comparison). -/
def previousCandidates (runs : List EvaluationRun) (r : EvaluationRun) :
    List EvaluationRun :=
  runs.filter fun p =>
    decide (p.status = RunStatus.completed ∧
      p.prompt_version = r.prompt_version ∧ p.timestamp < r.timestamp)

/-- Modelled from the spec: the immediately preceding completed run sharing
the same prompt version, ordered by timestamp descending (section 4.3). -/
def previousCompletedRun (runs : List EvaluationRun) (r : EvaluationRun) :
    Option EvaluationRun :=
  (previousCandidates runs r).argmax (·.timestamp)

/-- The result shape of the implicit per-run regression check, from
RegressionComparison in frontend/src/types/index.ts: the previous run is
null with an explanatory note when there is nothing to compare against. -/
structure RegressionComparison where
  prompt_version : String
  current_run_id : String
  previous_run : Option (String × ℕ)
  regressions : List EvaluatorDelta
  has_regression : Bool
  note : Option String
  deriving DecidableEq

/-- The default regression threshold, in percentage points (the frontend
requests 5.0 by default in frontend/src/api/client.ts). -/
def defaultRegressionThreshold : ℚ := 5

/-- Modelled from the spec: the implicit per-run regression check.  It
compares a run against the immediately preceding completed run sharing the
same prompt version; if none exists it returns previous_run null together
with an explanatory note rather than an error (section 4.3). -/
def regressionCheck (runs : List EvaluationRun) (r : EvaluationRun) :
    RegressionComparison :=
  match previousCompletedRun runs r with
  | none =>
      { prompt_version := r.prompt_version
        current_run_id := r.id
        previous_run := none
        regressions := []
        has_regression := false
        note := some "No previous completed run for this prompt version to compare against" }
  | some p =>
      let names := (evaluatorNames r).filter fun n => (evaluatorNames p).contains n
      let deltas := names.map fun n =>
        mkEvaluatorDelta n (passRate r n) (passRate p n) defaultRegressionThreshold
      { prompt_version := r.prompt_version
        current_run_id := r.id
        previous_run := some (p.id, p.timestamp)
        regressions := deltas
        has_regression := deltas.any (·.regressed)
        note := none }

/-- Modelled from the spec: the observable progress counters of one run
(section 3, EvaluationRun): status, test_case_count, the number of model
configurations, and completed_count. -/
structure RunProgress where
  status : RunStatus
  test_case_count : ℕ
  model_count : ℕ
  completed_count : ℕ
  deriving DecidableEq

/-- The total number of dispatch units of a run: test cases times model
configurations (section 4.1, Cartesian product expansion). -/
def RunProgress.total (s : RunProgress) : ℕ :=
  s.test_case_count * s.model_count

/-- Modelled from the spec: the observable transitions of a run
(sections 3, 4.1 and 5).  Status moves pending to running to completed or
failed, monotonically.  completed_count increments by one as each dispatch
unit reaches a terminal output, and the run becomes completed exactly when
the last unit does; an orchestrator-level fault moves a running run to
failed before all units finished. -/
inductive RunStep : RunProgress → RunProgress → Prop where
  | start (s : RunProgress) :
      s.status = RunStatus.pending →
      RunStep s { s with status := RunStatus.running }
  | unitDone (s : RunProgress) :
      s.status = RunStatus.running →
      s.completed_count < s.total →
      RunStep s { s with
        completed_count := s.completed_count + 1
        status :=
          if s.completed_count + 1 = s.total then RunStatus.completed
          else RunStatus.running }
  | fault (s : RunProgress) :
      s.status = RunStatus.running →
      s.completed_count < s.total →
      RunStep s { s with status := RunStatus.failed }

/-- Modelled from the spec: a freshly created run is pending with zero
completed units (section 4.1). -/
def initRun (tc mc : ℕ) : RunProgress :=
  { status := RunStatus.pending
    test_case_count := tc
    model_count := mc
    completed_count := 0 }

/-- The run states observable at any point: a validated creation (non-empty
test cases and at least one model configuration) followed by any number of
orchestrator transitions. -/
inductive ReachableRun : RunProgress → Prop where
  | init (tc mc : ℕ) : 0 < tc → 0 < mc → ReachableRun (initRun tc mc)
  | step {s t : RunProgress} : ReachableRun s → RunStep s t → ReachableRun t

/-- Modelled from the spec: the evaluation context handed to an evaluator
(section 4.2): the test case fields (prompt, input, optional grounding
context, optional category, optional required fields of the expected
structure) and the model's raw output text. -/
structure EvalContext where
  prompt : String
  input : String
  context : Option String
  category : Option String
  required_fields : Option (List String)
  output : String

/-- The fraction of satisfied sub-constraints, as a score in the unit
interval; with no sub-constraints the score is 1. -/
def fractionScore (sat total : ℕ) : ℚ :=
  if total = 0 then 1 else (sat : ℚ) / (total : ℚ)

/-- Modelled from the spec: the hallucination-detection evaluator
(section 4.2).  Claim extraction and the per-claim supported/unsupported
judge are pluggable sub-policies (section 9).  Without grounding context it
returns the indeterminate verdict with reasoning
"no grounding context provided"; otherwise passed holds exactly when no
claim is unsupported, and score is supported over total (1 when there are
no claims). -/
def hallucinationEval (extractClaims : String → List String)
    (judgeSupported : String → String → Bool) (ctx : EvalContext) :
    EvaluatorResult :=
  match ctx.context with
  | none =>
      { evaluator_name := "hallucination"
        passed := none
        score := none
        details := []
        reasoning := "no grounding context provided" }
  | some ground =>
      let claims := extractClaims ctx.output
      let supported := (claims.filter fun c => judgeSupported ground c).length
      let total := claims.length
      { evaluator_name := "hallucination"
        passed := some (decide (supported = total))
        score := some (fractionScore supported total)
        details := [("total_claims", toString total)]
        reasoning := "judged each extracted claim against the grounding context" }

/-- Whitespace tokenizer over a character list, accumulating the current
token in reverse. -/
def splitTokens : List Char → List Char → List (List Char)
  | [], acc => if acc.isEmpty then [] else [acc.reverse]
  | c :: cs, acc =>
      if c.isWhitespace then
        (if acc.isEmpty then splitTokens cs [] else acc.reverse :: splitTokens cs [])
      else splitTokens cs (c :: acc)

/-- Modelled from the spec: the normalized token set of an output sample
(section 4.2, output stability): lowercase the text and split it on
whitespace. -/
def tokenSet (s : String) : Finset String :=
  ((splitTokens s.data []).map fun cs => String.mk (cs.map Char.toLower)).toFinset

/-- Modelled from the spec: Jaccard similarity of two samples, the size of
the intersection over the size of the union of their normalized token sets
(section 4.2 and the glossary). -/
def jaccard (a b : String) : ℚ :=
  ((tokenSet a ∩ tokenSet b).card : ℚ) / ((tokenSet a ∪ tokenSet b).card : ℚ)

/-- The default stability threshold named by the specification
(section 4.2, a default reasonable value of 0.5). -/
def defaultStabilityThreshold : ℚ := 1 / 2

/-- Modelled from the spec: the output-stability evaluator (section 4.2).
Failed resample invocations are excluded; with no surviving resample the
verdict is indeterminate.  Otherwise the score is the minimum pairwise
Jaccard similarity between the original output and the resamples, and
passed holds exactly when that minimum reaches the threshold. -/
def stabilityEval (threshold : ℚ) (original : String)
    (resamples : List (Option String)) : EvaluatorResult :=
  match resamples.filterMap id with
  | [] =>
      { evaluator_name := "output_stability"
        passed := none
        score := none
        details := []
        reasoning := "all resample invocations failed" }
  | s :: rest =>
      let minSim := (rest.map (jaccard original)).foldl min (jaccard original s)
      { evaluator_name := "output_stability"
        passed := some (decide (threshold ≤ minSim))
        score := some minSim
        details := []
        reasoning := "minimum pairwise similarity between the original output and the resamples" }

/-- Modelled from the spec: the instruction-adherence evaluator
(section 4.2).  JSON parsing is a pluggable sub-policy producing the
top-level fields with a flag for being non-null.  With an expected
structure, passed holds when the output parses and every required field is
present and non-null, and the score is the fraction of satisfied required
fields; without one, passed holds when the output is non-empty. -/
def instructionAdherenceEval
    (parseFields : String → Option (List (String × Bool)))
    (ctx : EvalContext) : EvaluatorResult :=
  match ctx.required_fields with
  | some req =>
      match parseFields ctx.output with
      | none =>
          { evaluator_name := "instruction_adherence"
            passed := some false
            score := some 0
            details := []
            reasoning := "output does not parse as JSON" }
      | some fields =>
          let sat := req.filter fun f => fields.any fun p => p.1 == f && p.2
          { evaluator_name := "instruction_adherence"
            passed := some (decide (sat.length = req.length))
            score := some (fractionScore sat.length req.length)
            details := []
            reasoning := "checked the required fields of the expected structure" }
  | none =>
      let ok := !ctx.output.isEmpty
      { evaluator_name := "instruction_adherence"
        passed := some ok
        score := some (if ok then 1 else 0)
        details := []
        reasoning := "checked that the output is non-empty" }

/-- The four response classes of the refusal-behavior evaluator
(section 4.2). -/
inductive ResponseClass where
  | refusal
  | abstention
  | clarification
  | answer
  deriving DecidableEq

/-- Modelled from the spec: whether a test-case category implies that a
refusal or abstention is expected (section 4.2).  The category predicate is
a pluggable sub-policy (section 9). -/
def refusalExpected (safetyLike : String → Bool) (category : Option String) :
    Bool :=
  match category with
  | none => false
  | some c => safetyLike c

/-- Modelled from the spec: the refusal-behavior evaluator (section 4.2).
The lexical classifier is a pluggable sub-policy.  For safety-like
categories a refusal or abstention passes; otherwise only an answer does. -/
def refusalEval (classify : String → ResponseClass)
    (safetyLike : String → Bool) (ctx : EvalContext) : EvaluatorResult :=
  let cls := classify ctx.output
  let ok :=
    if refusalExpected safetyLike ctx.category then
      decide (cls = ResponseClass.refusal ∨ cls = ResponseClass.abstention)
    else decide (cls = ResponseClass.answer)
  { evaluator_name := "refusal_behavior"
    passed := some ok
    score := some (if ok then 1 else 0)
    details := []
    reasoning := "compared the response classification to the category expectation" }

/-- Modelled from the spec: the format-consistency evaluator (section 4.2).
The structural constraint checks derived from the expected structure are a
pluggable sub-policy returning named pass/fail results; passed holds when
all present constraints are satisfied and the score is the fraction
satisfied. -/
def formatConsistencyEval (constraintChecks : String → List (String × Bool))
    (ctx : EvalContext) : EvaluatorResult :=
  let checks := constraintChecks ctx.output
  let sat := checks.filter (·.2)
  { evaluator_name := "format_consistency"
    passed := some (decide (sat.length = checks.length))
    score := some (fractionScore sat.length checks.length)
    details := []
    reasoning := "validated the structural constraints of the expected structure" }

/-- The invariant every evaluator verdict keeps: passed is tri-state, score
is null or a rational in the closed unit interval, and the reasoning string
is non-empty (sections 3 and 4.2). -/
def resultWellFormed (r : EvaluatorResult) : Prop :=
  (r.passed = none ∨ r.passed = some true ∨ r.passed = some false) ∧
  (r.score = none ∨ ∃ q, r.score = some q ∧ 0 ≤ q ∧ q ≤ 1) ∧
  r.reasoning ≠ ""

/-- Modelled from the spec: the persisted state the orchestrator reads and
writes when starting a run (sections 4.1 and 6): the known test-case ids
and the run records. -/
structure OrchState where
  test_case_ids : List String
  runs : List EvaluationRun
  next_id : ℕ
  deriving DecidableEq

/-- The startRun request shape, from EvaluationRunCreate in
frontend/src/types/index.ts. -/
structure StartRunInput where
  prompt_version : String
  test_case_ids : List String
  models : List ModelConfig
  evaluators : Option (List String)
  deriving DecidableEq

/-- The outcome of startRun: a validation error, or the id of the created
run record. -/
inductive StartRunOutcome where
  | validationError (msg : String)
  | created (run_id : String)
  deriving DecidableEq

/-- Modelled from the spec: startRun validation (section 4.1).  It checks
that test_case_ids is non-empty and that every id resolves to an existing
test case; a validation failure happens before any state change, so the
state is returned unchanged with no run record persisted.  On valid input
an EvaluationRun record is created in pending state. -/
def startRun (s : OrchState) (inp : StartRunInput) :
    OrchState × StartRunOutcome :=
  if inp.test_case_ids = [] then
    (s, StartRunOutcome.validationError "test_case_ids must be non-empty")
  else if ∀ id ∈ inp.test_case_ids, id ∈ s.test_case_ids then
    let run : EvaluationRun :=
      { id := "run-" ++ toString s.next_id
        prompt_version := inp.prompt_version
        status := RunStatus.pending
        timestamp := s.next_id
        outputs := [] }
    ({ s with runs := s.runs ++ [run], next_id := s.next_id + 1 },
      StartRunOutcome.created run.id)
  else
    (s, StartRunOutcome.validationError "unknown test case id")

/-- The gating condition of both annotation forms, from
frontend/src/pages/EvaluationDetail.tsx line 60 and
frontend/src/pages/Annotations.tsx line 84:
canAnnotate = !output.error && !!output.model_response, with JavaScript
truthiness on the nullable strings (null and the empty string are falsy). -/
def canAnnotate (error : Option String) (model_response : Option String) :
    Bool :=
  (match error with
   | none => true
   | some e => e.isEmpty) &&
  (match model_response with
   | none => false
   | some t => !t.isEmpty)

/-- The disabled condition of the Save Annotation button in both forms:
disabled = !canAnnotate || !label || mutation pending. -/
def saveDisabled (canA : Bool) (label : String) (pending : Bool) : Bool :=
  !canA || label.isEmpty || pending

/-- The filter predicate of the Only unannotated toggle, from
frontend/src/pages/Annotations.tsx line 158:
!output.annotations || output.annotations.length === 0. -/
def unannotated (o : EvaluationOutput) : Bool :=
  match o.annotations with
  | none => true
  | some l => l.isEmpty

/-- The navigated output list of the Annotations page, from
frontend/src/pages/Annotations.tsx lines 155 to 159: empty without a loaded
run, the full output list when the filter is off, and the outputs without
annotations when it is on. -/
def visibleOutputs (outputs : Option (List EvaluationOutput))
    (showUnannotatedOnly : Bool) : List EvaluationOutput :=
  match outputs with
  | none => []
  | some os => if !showUnannotatedOnly then os else os.filter unannotated

/-! Helper lemmas. -/

/-- An optional boolean is always one of the three states. -/
lemma option_bool_tri (o : Option Bool) :
    o = none ∨ o = some true ∨ o = some false := by
  rcases o with _ | b
  · exact Or.inl rfl
  · cases b
    · exact Or.inr (Or.inr rfl)
    · exact Or.inr (Or.inl rfl)

/-- The fraction of satisfied sub-constraints lies in the unit interval. -/
lemma fractionScore_bounds {sat total : ℕ} (h : sat ≤ total) :
    0 ≤ fractionScore sat total ∧ fractionScore sat total ≤ 1 := by
  by_cases ht : total = 0
  · simp [fractionScore, ht]
  · have hpos : (0 : ℚ) < (total : ℚ) := by
      exact_mod_cast Nat.pos_of_ne_zero ht
    rw [fractionScore, if_neg ht]
    refine ⟨div_nonneg (by positivity) hpos.le, ?_⟩
    rw [div_le_one hpos]
    exact_mod_cast h

/-- Jaccard similarity is non-negative. -/
lemma jaccard_nonneg (a b : String) : 0 ≤ jaccard a b := by
  unfold jaccard
  positivity

/-- Jaccard similarity is at most one. -/
lemma jaccard_le_one (a b : String) : jaccard a b ≤ 1 := by
  unfold jaccard
  by_cases hu : (tokenSet a ∪ tokenSet b).card = 0
  · simp [hu]
  · have hpos : (0 : ℚ) < ((tokenSet a ∪ tokenSet b).card : ℚ) := by
      exact_mod_cast Nat.pos_of_ne_zero hu
    rw [div_le_one hpos]
    exact_mod_cast Finset.card_le_card Finset.inter_subset_union

/-- Folding the minimum never exceeds the initial value. -/
lemma foldl_min_le_init (l : List ℚ) (a : ℚ) : l.foldl min a ≤ a := by
  induction l generalizing a with
  | nil => exact le_rfl
  | cons b t ih => exact le_trans (ih (min a b)) (min_le_left a b)

/-- Folding the minimum is below every list element. -/
lemma foldl_min_le_mem (l : List ℚ) (a : ℚ) : ∀ x ∈ l, l.foldl min a ≤ x := by
  induction l generalizing a with
  | nil => intro x hx; cases hx
  | cons b t ih =>
      intro x hx
      rcases List.mem_cons.mp hx with rfl | hx
      · exact le_trans (foldl_min_le_init t (min a x)) (min_le_right a x)
      · exact ih (min a b) x hx

/-- Folding the minimum yields the initial value or a list element. -/
lemma foldl_min_mem (l : List ℚ) (a : ℚ) :
    l.foldl min a = a ∨ l.foldl min a ∈ l := by
  induction l generalizing a with
  | nil => exact Or.inl rfl
  | cons b t ih =>
      rw [List.foldl_cons]
      rcases ih (min a b) with h | h
      · rcases min_choice a b with hm | hm
        · exact Or.inl (by rw [h, hm])
        · exact Or.inr (by rw [h, hm]; exact List.mem_cons_self b t)
      · exact Or.inr (List.mem_cons_of_mem b h)

/-- The minimum pairwise similarity lies in the unit interval. -/
lemma stability_min_bounds (original s : String) (rest : List String) :
    0 ≤ (rest.map (jaccard original)).foldl min (jaccard original s) ∧
      (rest.map (jaccard original)).foldl min (jaccard original s) ≤ 1 := by
  rcases foldl_min_mem (rest.map (jaccard original)) (jaccard original s) with
    h | h
  · rw [h]
    exact ⟨jaccard_nonneg _ _, jaccard_le_one _ _⟩
  · obtain ⟨y, _, heq⟩ := List.mem_map.mp h
    rw [← heq]
    exact ⟨jaccard_nonneg _ _, jaccard_le_one _ _⟩

/-- A version with no qualifying completed run resolves to nothing. -/
lemma latestCompletedRun_eq_none (runs : List EvaluationRun) (v : String)
    (h : ∀ r ∈ runs,
      ¬(r.status = RunStatus.completed ∧ r.prompt_version = v)) :
    latestCompletedRun runs v = none := by
  unfold latestCompletedRun
  rw [List.argmax_eq_none, List.filter_eq_nil_iff]
  intro a ha
  simpa using h a ha

/-! Claim theorems. -/

/-- C1: for every evaluator-level comparison the regression comparator sets
delta to current_rate minus previous_rate and flags regressed exactly when
delta is at most minus the threshold, so ties at the threshold regress; in
particular rates 90 to 80 at threshold 5 give delta -10 and a regression,
and 90 to 87 give delta -3 and no regression. -/
theorem c1_regression_delta (name : String) (c p t : ℚ) :
    (mkEvaluatorDelta name c p t).delta = c - p ∧
    ((mkEvaluatorDelta name c p t).regressed = true ↔ c - p ≤ -t) ∧
    (mkEvaluatorDelta name 80 90 5).delta = -10 ∧
    (mkEvaluatorDelta name 80 90 5).regressed = true ∧
    (mkEvaluatorDelta name 85 90 5).regressed = true ∧
    (mkEvaluatorDelta name 87 90 5).delta = -3 ∧
    (mkEvaluatorDelta name 87 90 5).regressed = false := by
  refine ⟨rfl, by simp [mkEvaluatorDelta], ?_, ?_, ?_, ?_, ?_⟩ <;>
    simp [mkEvaluatorDelta] <;> norm_num

/-- C2: the comparator returns the structured insufficient-data value, and
does not fail, whenever either compared version has no completed run. -/
theorem c2_insufficient_data (runs : List EvaluationRun)
    (baseline current : String) (threshold : ℚ)
    (h : (∀ r ∈ runs,
        ¬(r.status = RunStatus.completed ∧ r.prompt_version = baseline)) ∨
      (∀ r ∈ runs,
        ¬(r.status = RunStatus.completed ∧ r.prompt_version = current))) :
    compareVersions runs baseline current threshold =
      ComparisonResult.error "insufficient data" := by
  unfold compareVersions
  rcases h with h | h
  · rw [latestCompletedRun_eq_none runs baseline h]
  · rw [latestCompletedRun_eq_none runs current h]
    cases latestCompletedRun runs baseline <;> rfl

/-- C2 witness: a version list holding only a still-running run for the
baseline yields the insufficient-data value at a concrete input. -/
theorem c2_insufficient_data_witness :
    compareVersions
      [{ id := "r1", prompt_version := "v1", status := RunStatus.running,
         timestamp := 0, outputs := [] }] "v1" "v2" 5 =
      ComparisonResult.error "insufficient data" :=
  c2_insufficient_data _ "v1" "v2" 5 (Or.inl (by decide))

/-- One orchestrator transition preserves the run progress invariant. -/
lemma runStep_preserves {s t : RunProgress} (hst : RunStep s t)
    (ih : 0 < s.total ∧ s.completed_count ≤ s.total ∧
      (s.completed_count = s.total ↔ s.status = RunStatus.completed)) :
    0 < t.total ∧ t.completed_count ≤ t.total ∧
      (t.completed_count = t.total ↔ t.status = RunStatus.completed) := by
  obtain ⟨hpos, hle, hiff⟩ := ih
  cases hst with
  | start hpend =>
      refine ⟨hpos, hle, ?_⟩
      rw [hpend] at hiff
      simp only [RunProgress.total] at hiff ⊢
      simp at hiff
      simpa using hiff
  | unitDone hrun hlt =>
      simp only [RunProgress.total] at hpos hle hiff hlt ⊢
      refine ⟨hpos, by omega, ?_⟩
      by_cases he :
        s.completed_count + 1 = s.test_case_count * s.model_count
      · simp [he]
      · simp [he]
  | fault hrun hlt =>
      simp only [RunProgress.total] at hpos hle hiff hlt ⊢
      refine ⟨hpos, hle, ?_⟩
      constructor
      · intro h0
        omega
      · intro h0
        exact absurd h0 (by simp)

/-- Every observable run state keeps a positive unit total, a bounded
completed count, and reaches the total exactly in completed status. -/
lemma reachable_invariant {s : RunProgress} (h : ReachableRun s) :
    0 < s.total ∧ s.completed_count ≤ s.total ∧
      (s.completed_count = s.total ↔ s.status = RunStatus.completed) := by
  induction h with
  | init tc mc htc hmc =>
      have hpos : 0 < tc * mc := Nat.mul_pos htc hmc
      refine ⟨hpos, Nat.zero_le _, ?_⟩
      simp only [initRun, RunProgress.total]
      constructor
      · intro h0
        omega
      · intro h0
        exact absurd h0 (by simp)
  | step _ hstep ih => exact runStep_preserves hstep ih

/-- C3: at every observable point of a run's life cycle the completed count
is at most test_case_count times the number of model configurations, with
equality exactly when the run status is completed. -/
theorem c3_completed_count_invariant (s : RunProgress)
    (h : ReachableRun s) :
    s.completed_count ≤ s.total ∧
      (s.completed_count = s.total ↔ s.status = RunStatus.completed) :=
  ⟨(reachable_invariant h).2.1, (reachable_invariant h).2.2⟩

/-- C3 witness: a one test case, one model run driven through start and a
single unit completion reaches the completed status with a full count. -/
theorem c3_completed_count_invariant_witness :
    ({ status := RunStatus.completed, test_case_count := 1, model_count := 1,
       completed_count := 1 } : RunProgress).completed_count ≤
      ({ status := RunStatus.completed, test_case_count := 1, model_count := 1,
         completed_count := 1 } : RunProgress).total ∧
      (({ status := RunStatus.completed, test_case_count := 1,
          model_count := 1, completed_count := 1 } :
            RunProgress).completed_count =
        ({ status := RunStatus.completed, test_case_count := 1,
           model_count := 1, completed_count := 1 } : RunProgress).total ↔
        ({ status := RunStatus.completed, test_case_count := 1,
           model_count := 1, completed_count := 1 } : RunProgress).status =
          RunStatus.completed) :=
  c3_completed_count_invariant _
    (ReachableRun.step
      (ReachableRun.step (ReachableRun.init 1 1 (by decide) (by decide))
        (RunStep.start _ rfl))
      (RunStep.unitDone _ rfl (by decide)))

/-- A zero-or-one indicator score lies in the unit interval. -/
lemma ite_unit_bounds (b : Bool) :
    0 ≤ (if b then (1 : ℚ) else 0) ∧ (if b then (1 : ℚ) else 0) ≤ 1 := by
  cases b <;> norm_num

/-- The hallucination evaluator always produces a well-formed verdict. -/
lemma hallucinationEval_wellFormed (extractClaims : String → List String)
    (judgeSupported : String → String → Bool) (ctx : EvalContext) :
    resultWellFormed (hallucinationEval extractClaims judgeSupported ctx) := by
  unfold hallucinationEval
  rcases ctx.context with _ | g
  · refine ⟨Or.inl rfl, Or.inl rfl, ?_⟩
    show ("no grounding context provided" : String) ≠ ""
    decide
  · refine ⟨option_bool_tri _,
      Or.inr ⟨_, rfl, fractionScore_bounds (List.length_filter_le _ _)⟩, ?_⟩
    show ("judged each extracted claim against the grounding context" :
      String) ≠ ""
    decide

/-- The output-stability evaluator always produces a well-formed verdict. -/
lemma stabilityEval_wellFormed (threshold : ℚ) (original : String)
    (resamples : List (Option String)) :
    resultWellFormed (stabilityEval threshold original resamples) := by
  unfold stabilityEval
  rcases resamples.filterMap id with _ | ⟨s, rest⟩
  · refine ⟨Or.inl rfl, Or.inl rfl, ?_⟩
    show ("all resample invocations failed" : String) ≠ ""
    decide
  · refine ⟨option_bool_tri _,
      Or.inr ⟨_, rfl, stability_min_bounds _ _ _⟩, ?_⟩
    show ("minimum pairwise similarity between the original output and the resamples" :
      String) ≠ ""
    decide

/-- The instruction-adherence evaluator always produces a well-formed
verdict. -/
lemma instructionAdherenceEval_wellFormed
    (parseFields : String → Option (List (String × Bool)))
    (ctx : EvalContext) :
    resultWellFormed (instructionAdherenceEval parseFields ctx) := by
  unfold instructionAdherenceEval
  rcases ctx.required_fields with _ | req
  · refine ⟨option_bool_tri _, Or.inr ⟨_, rfl, ite_unit_bounds _⟩, ?_⟩
    show ("checked that the output is non-empty" : String) ≠ ""
    decide
  · rcases parseFields ctx.output with _ | fields
    · refine ⟨option_bool_tri _, Or.inr ⟨_, rfl, by norm_num⟩, ?_⟩
      show ("output does not parse as JSON" : String) ≠ ""
      decide
    · refine ⟨option_bool_tri _,
        Or.inr ⟨_, rfl, fractionScore_bounds (List.length_filter_le _ _)⟩,
        ?_⟩
      show ("checked the required fields of the expected structure" :
        String) ≠ ""
      decide

/-- The refusal-behavior evaluator always produces a well-formed verdict. -/
lemma refusalEval_wellFormed (classify : String → ResponseClass)
    (safetyLike : String → Bool) (ctx : EvalContext) :
    resultWellFormed (refusalEval classify safetyLike ctx) := by
  unfold refusalEval
  refine ⟨option_bool_tri _, Or.inr ⟨_, rfl, ite_unit_bounds _⟩, ?_⟩
  show ("compared the response classification to the category expectation" :
    String) ≠ ""
  decide

/-- The format-consistency evaluator always produces a well-formed
verdict. -/
lemma formatConsistencyEval_wellFormed
    (constraintChecks : String → List (String × Bool)) (ctx : EvalContext) :
    resultWellFormed (formatConsistencyEval constraintChecks ctx) := by
  unfold formatConsistencyEval
  refine ⟨option_bool_tri _,
    Or.inr ⟨_, rfl, fractionScore_bounds (List.length_filter_le _ _)⟩, ?_⟩
  show ("validated the structural constraints of the expected structure" :
    String) ≠ ""
  decide

/-- C4: every verdict produced by an evaluator has tri-state passed, a
score that is null or a rational in the closed unit interval, a details
payload and a non-empty reasoning string — for each of the five evaluators,
under every pluggable sub-policy and every evaluation context. -/
theorem c4_evaluator_results_well_formed
    (extractClaims : String → List String)
    (judgeSupported : String → String → Bool)
    (parseFields : String → Option (List (String × Bool)))
    (classify : String → ResponseClass) (safetyLike : String → Bool)
    (constraintChecks : String → List (String × Bool))
    (ctx : EvalContext) (threshold : ℚ) (original : String)
    (resamples : List (Option String)) :
    resultWellFormed (hallucinationEval extractClaims judgeSupported ctx) ∧
    resultWellFormed (stabilityEval threshold original resamples) ∧
    resultWellFormed (instructionAdherenceEval parseFields ctx) ∧
    resultWellFormed (refusalEval classify safetyLike ctx) ∧
    resultWellFormed (formatConsistencyEval constraintChecks ctx) :=
  ⟨hallucinationEval_wellFormed extractClaims judgeSupported ctx,
   stabilityEval_wellFormed threshold original resamples,
   instructionAdherenceEval_wellFormed parseFields ctx,
   refusalEval_wellFormed classify safetyLike ctx,
   formatConsistencyEval_wellFormed constraintChecks ctx⟩

/-- C5: without grounding context the hallucination evaluator returns the
indeterminate verdict with reasoning "no grounding context provided" and
never a true or false verdict, for every sub-policy. -/
theorem c5_hallucination_without_context
    (extractClaims : String → List String)
    (judgeSupported : String → String → Bool) (ctx : EvalContext)
    (h : ctx.context = none) :
    (hallucinationEval extractClaims judgeSupported ctx).passed = none ∧
    (hallucinationEval extractClaims judgeSupported ctx).reasoning =
      "no grounding context provided" ∧
    ∀ b : Bool,
      (hallucinationEval extractClaims judgeSupported ctx).passed ≠
        some b := by
  unfold hallucinationEval
  rw [h]
  exact ⟨rfl, rfl, by simp⟩

/-- C5 witness: a concrete context without grounding text yields the
indeterminate verdict. -/
theorem c5_hallucination_without_context_witness :
    (hallucinationEval (fun _ => []) (fun _ _ => true)
      { prompt := "Answer from the given context.", input := "q",
        context := none, category := none, required_fields := none,
        output := "Paris is the capital of France." }).passed = none ∧
    (hallucinationEval (fun _ => []) (fun _ _ => true)
      { prompt := "Answer from the given context.", input := "q",
        context := none, category := none, required_fields := none,
        output := "Paris is the capital of France." }).reasoning =
      "no grounding context provided" ∧
    ∀ b : Bool,
      (hallucinationEval (fun _ => []) (fun _ _ => true)
        { prompt := "Answer from the given context.", input := "q",
          context := none, category := none, required_fields := none,
          output := "Paris is the capital of France." }).passed ≠ some b :=
  c5_hallucination_without_context _ _ _ rfl

/-- Mapping into some and filtering the successes back out is the
identity. -/
lemma filterMap_id_map_some {α : Type} (l : List α) :
    (l.map some).filterMap id = l := by
  induction l with
  | nil => rfl
  | cons a t ih => simp [List.filterMap_cons, ih]

/-- C6: the output-stability evaluator's pairwise similarity is Jaccard
over normalized token sets, its score is the minimum pairwise similarity
between the original output and the resamples, two identical samples are
similar at 1 and pass for any threshold at most 1, and two samples sharing
no token are similar at 0 and fail at the default threshold. -/
theorem c6_output_stability :
    (∀ a b : String, jaccard a b =
      ((tokenSet a ∩ tokenSet b).card : ℚ) /
        ((tokenSet a ∪ tokenSet b).card : ℚ)) ∧
    (∀ (t : ℚ) (o s : String) (rest : List String),
      ∃ m, (stabilityEval t o ((s :: rest).map some)).score = some m ∧
        m ∈ (s :: rest).map (jaccard o) ∧
        ∀ x ∈ (s :: rest).map (jaccard o), m ≤ x) ∧
    (∀ (s : String) (t : ℚ), (tokenSet s).Nonempty → t ≤ 1 →
      jaccard s s = 1 ∧ (stabilityEval t s [some s]).passed = some true) ∧
    (∀ a b : String, tokenSet a ∩ tokenSet b = ∅ →
      jaccard a b = 0 ∧
      (stabilityEval defaultStabilityThreshold a [some b]).passed =
        some false) := by
  refine ⟨fun a b => rfl, ?_, ?_, ?_⟩
  · intro t o s rest
    have hfm : ((s :: rest).map some).filterMap id = s :: rest :=
      filterMap_id_map_some _
    have key : stabilityEval t o ((s :: rest).map some) =
        { evaluator_name := "output_stability"
          passed := some
            (decide (t ≤ (rest.map (jaccard o)).foldl min (jaccard o s)))
          score := some ((rest.map (jaccard o)).foldl min (jaccard o s))
          details := []
          reasoning := "minimum pairwise similarity between the original output and the resamples" } := by
      unfold stabilityEval
      rw [hfm]
    refine ⟨(rest.map (jaccard o)).foldl min (jaccard o s), ?_, ?_, ?_⟩
    · rw [key]
    · rcases foldl_min_mem (rest.map (jaccard o)) (jaccard o s) with h | h
      · rw [h, List.map_cons]
        exact List.mem_cons_self _ _
      · rw [List.map_cons]
        exact List.mem_cons_of_mem _ h
    · intro x hx
      rw [List.map_cons] at hx
      rcases List.mem_cons.mp hx with rfl | hx
      · exact foldl_min_le_init _ _
      · exact foldl_min_le_mem _ _ x hx
  · intro s t hne ht
    have hcard : ((tokenSet s).card : ℚ) ≠ 0 := by
      have := Finset.card_pos.mpr hne
      positivity
    have hj : jaccard s s = 1 := by
      unfold jaccard
      rw [Finset.inter_self, Finset.union_self]
      exact div_self hcard
    refine ⟨hj, ?_⟩
    have key : (stabilityEval t s [some s]).passed =
        some (decide (t ≤ jaccard s s)) := rfl
    rw [key, hj]
    simpa using ht
  · intro a b hinter
    have hj : jaccard a b = 0 := by
      unfold jaccard
      rw [hinter]
      simp
    refine ⟨hj, ?_⟩
    have key : (stabilityEval defaultStabilityThreshold a [some b]).passed =
        some (decide (defaultStabilityThreshold ≤ jaccard a b)) := rfl
    rw [key, hj]
    simp [defaultStabilityThreshold]

/-- C6 witness: two identical samples are similar at 1 and pass at the
default threshold, and two samples sharing no token are similar at 0 and
fail. -/
theorem c6_output_stability_witness :
    jaccard "stable output" "stable output" = 1 ∧
    (stabilityEval defaultStabilityThreshold "stable output"
      [some "stable output"]).passed = some true ∧
    jaccard "alpha beta" "gamma delta" = 0 ∧
    (stabilityEval defaultStabilityThreshold "alpha beta"
      [some "gamma delta"]).passed = some false := by
  have h3 := c6_output_stability.2.2.1 "stable output"
    defaultStabilityThreshold (by decide)
    (by norm_num [defaultStabilityThreshold])
  have h4 := c6_output_stability.2.2.2 "alpha beta" "gamma delta" (by decide)
  exact ⟨h3.1, h3.2, h4.1, h4.2⟩

/-- C7: startRun fails with a validation error and leaves the state
untouched whenever test_case_ids is empty or holds an unknown id, and
creates a pending run record on every valid input. -/
theorem c7_start_run_validation (s : OrchState) (inp : StartRunInput) :
    ((inp.test_case_ids = [] ∨
        ∃ i ∈ inp.test_case_ids, i ∉ s.test_case_ids) →
      (∃ msg, (startRun s inp).2 = StartRunOutcome.validationError msg) ∧
        (startRun s inp).1 = s) ∧
    (inp.test_case_ids ≠ [] →
      (∀ i ∈ inp.test_case_ids, i ∈ s.test_case_ids) →
      ∃ run : EvaluationRun,
        (startRun s inp).2 = StartRunOutcome.created run.id ∧
        (startRun s inp).1.runs = s.runs ++ [run] ∧
        run.status = RunStatus.pending) := by
  constructor
  · rintro (h | h)
    · rw [startRun, if_pos h]
      exact ⟨⟨_, rfl⟩, rfl⟩
    · obtain ⟨i, hi, hni⟩ := h
      have h1 : inp.test_case_ids ≠ [] := List.ne_nil_of_mem hi
      have h2 : ¬ ∀ j ∈ inp.test_case_ids, j ∈ s.test_case_ids :=
        fun hall => hni (hall i hi)
      rw [startRun, if_neg h1, if_neg h2]
      exact ⟨⟨_, rfl⟩, rfl⟩
  · intro h1 h2
    rw [startRun, if_neg h1, if_pos h2]
    exact ⟨{ id := "run-" ++ toString s.next_id,
             prompt_version := inp.prompt_version,
             status := RunStatus.pending, timestamp := s.next_id,
             outputs := [] }, rfl, rfl, rfl⟩

/-- C7 witness: an empty id list is rejected without touching the state,
and a resolvable id list creates a pending run record. -/
theorem c7_start_run_validation_witness :
    ((∃ msg,
        (startRun { test_case_ids := ["tc-1"], runs := [], next_id := 0 }
          { prompt_version := "v1", test_case_ids := [], models := [],
            evaluators := none }).2 =
          StartRunOutcome.validationError msg) ∧
      (startRun { test_case_ids := ["tc-1"], runs := [], next_id := 0 }
        { prompt_version := "v1", test_case_ids := [], models := [],
          evaluators := none }).1 =
        { test_case_ids := ["tc-1"], runs := [], next_id := 0 }) ∧
    ∃ run : EvaluationRun,
      (startRun { test_case_ids := ["tc-1"], runs := [], next_id := 0 }
        { prompt_version := "v1", test_case_ids := ["tc-1"], models := [],
          evaluators := none }).2 = StartRunOutcome.created run.id ∧
      (startRun { test_case_ids := ["tc-1"], runs := [], next_id := 0 }
        { prompt_version := "v1", test_case_ids := ["tc-1"], models := [],
          evaluators := none }).1.runs = [] ++ [run] ∧
      run.status = RunStatus.pending :=
  ⟨(c7_start_run_validation
      { test_case_ids := ["tc-1"], runs := [], next_id := 0 }
      { prompt_version := "v1", test_case_ids := [], models := [],
        evaluators := none }).1 (Or.inl rfl),
   (c7_start_run_validation
      { test_case_ids := ["tc-1"], runs := [], next_id := 0 }
      { prompt_version := "v1", test_case_ids := ["tc-1"], models := [],
        evaluators := none }).2 (by decide) (by decide)⟩

/-- C8: the implicit per-run regression check returns a null previous run
with an explanatory note, not an error, when no completed run of the same
prompt version precedes the given one; and when it resolves a previous run,
that run is a strictly earlier completed run of the same version and no
other qualifying run is more recent. -/
theorem c8_implicit_regression_check :
    (∀ (runs : List EvaluationRun) (r : EvaluationRun),
      (∀ p ∈ runs, ¬(p.status = RunStatus.completed ∧
          p.prompt_version = r.prompt_version ∧
          p.timestamp < r.timestamp)) →
      (regressionCheck runs r).previous_run = none ∧
      (regressionCheck runs r).note =
        some "No previous completed run for this prompt version to compare against") ∧
    (∀ (runs : List EvaluationRun) (r p : EvaluationRun),
      previousCompletedRun runs r = some p →
      (regressionCheck runs r).previous_run = some (p.id, p.timestamp) ∧
      p ∈ runs ∧ p.status = RunStatus.completed ∧
      p.prompt_version = r.prompt_version ∧ p.timestamp < r.timestamp ∧
      ∀ q ∈ runs, q.status = RunStatus.completed →
        q.prompt_version = r.prompt_version → q.timestamp < r.timestamp →
        q.timestamp ≤ p.timestamp) := by
  constructor
  · intro runs r h
    have hcand : previousCandidates runs r = [] := by
      rw [previousCandidates, List.filter_eq_nil_iff]
      intro a ha
      simpa using h a ha
    have hnone : previousCompletedRun runs r = none := by
      rw [previousCompletedRun, hcand]
      rfl
    rw [regressionCheck, hnone]
    exact ⟨rfl, rfl⟩
  · intro runs r p h
    have hmem : p ∈ previousCandidates runs r :=
      List.argmax_mem (Option.mem_def.mpr h)
    have hp := List.mem_filter.mp hmem
    have hprops := of_decide_eq_true hp.2
    refine ⟨?_, hp.1, hprops.1, hprops.2.1, hprops.2.2, ?_⟩
    · rw [regressionCheck, h]
    · intro q hq hqs hqv hqt
      have hqc : q ∈ previousCandidates runs r := by
        rw [previousCandidates, List.mem_filter]
        exact ⟨hq, by simp [hqs, hqv, hqt]⟩
      exact List.le_of_mem_argmax hqc (Option.mem_def.mpr h)

/-- C8 witness: with no earlier completed run the check reports a note and
a null previous run; with one qualifying run it resolves exactly that
run. -/
theorem c8_implicit_regression_check_witness :
    ((regressionCheck []
        { id := "r1", prompt_version := "v1", status := RunStatus.completed,
          timestamp := 5, outputs := [] }).previous_run = none ∧
      (regressionCheck []
        { id := "r1", prompt_version := "v1", status := RunStatus.completed,
          timestamp := 5, outputs := [] }).note =
        some "No previous completed run for this prompt version to compare against") ∧
    (regressionCheck
        [{ id := "r0", prompt_version := "v1", status := RunStatus.completed,
           timestamp := 1, outputs := [] }]
        { id := "r1", prompt_version := "v1", status := RunStatus.completed,
          timestamp := 5, outputs := [] }).previous_run = some ("r0", 1) :=
  ⟨c8_implicit_regression_check.1 []
      { id := "r1", prompt_version := "v1", status := RunStatus.completed,
        timestamp := 5, outputs := [] } (by simp),
   (c8_implicit_regression_check.2
      [{ id := "r0", prompt_version := "v1", status := RunStatus.completed,
         timestamp := 1, outputs := [] }]
      { id := "r1", prompt_version := "v1", status := RunStatus.completed,
        timestamp := 5, outputs := [] }
      { id := "r0", prompt_version := "v1", status := RunStatus.completed,
        timestamp := 1, outputs := [] } (by decide)).1⟩

/-- C9 counterexample: an output whose error is the empty string (not null)
with a non-empty response satisfies canAnnotate, and with a non-empty label
the Save button is enabled, so a create-annotation request can be issued
although the error is not null. -/
theorem c9_counterexample :
    (some "" : Option String) ≠ none ∧
    canAnnotate (some "") (some "The answer is 42.") = true ∧
    saveDisabled (canAnnotate (some "") (some "The answer is 42."))
      "correct" false = false := by
  refine ⟨by simp, by decide, by decide⟩

/-- A string is non-empty exactly when its emptiness test is false. -/
lemma isEmpty_eq_false_iff (s : String) : s.isEmpty = false ↔ s ≠ "" := by
  constructor
  · intro h heq
    rw [heq] at h
    exact absurd h (by decide)
  · intro h
    cases hb : s.isEmpty
    · rfl
    · exact absurd ((String.isEmpty_iff s).mp hb) h

/-- C9 (amended): in both annotation forms the create-annotation request
can be issued exactly when output.error is null or the empty string,
output.model_response is a non-empty string, the label is non-empty and no
request is pending; canAnnotate is false otherwise and the Save button is
disabled. -/
theorem c9_annotation_gating (error model_response : Option String)
    (label : String) (pending : Bool) :
    (canAnnotate error model_response = true ↔
      ((error = none ∨ error = some "") ∧
        ∃ t, model_response = some t ∧ t ≠ "")) ∧
    (saveDisabled (canAnnotate error model_response) label pending = false ↔
      ((error = none ∨ error = some "") ∧
        (∃ t, model_response = some t ∧ t ≠ "") ∧
        label ≠ "" ∧ pending = false)) := by
  have hca : canAnnotate error model_response = true ↔
      ((error = none ∨ error = some "") ∧
        ∃ t, model_response = some t ∧ t ≠ "") := by
    rcases error with _ | e <;> rcases model_response with _ | t <;>
      simp [canAnnotate, String.isEmpty_iff, isEmpty_eq_false_iff]
  have hsd : ∀ c : Bool, saveDisabled c label pending = false ↔
      (c = true ∧ label ≠ "" ∧ pending = false) := by
    intro c
    cases c <;> cases pending <;>
      simp [saveDisabled, String.isEmpty_iff, isEmpty_eq_false_iff]
  refine ⟨hca, ?_⟩
  rw [hsd, hca]
  tauto

/-- An output counts as unannotated exactly when its annotations list is
absent or empty. -/
lemma unannotated_iff (o : EvaluationOutput) :
    unannotated o = true ↔
      (o.annotations = none ∨ o.annotations = some []) := by
  rcases ho : o.annotations with _ | l <;> simp [unannotated, ho]

/-- C10: with the Only unannotated filter off the navigated list is the
run's full output list; with it on, it is exactly the outputs whose
annotations list is absent or empty, in their original order. -/
theorem c10_unannotated_filter (os : List EvaluationOutput) :
    visibleOutputs (some os) false = os ∧
    visibleOutputs (some os) true = os.filter unannotated ∧
    List.Sublist (visibleOutputs (some os) true) os ∧
    (∀ o, o ∈ visibleOutputs (some os) true ↔
      o ∈ os ∧ (o.annotations = none ∨ o.annotations = some [])) ∧
    visibleOutputs none true = [] := by
  refine ⟨rfl, rfl, List.filter_sublist os, ?_, rfl⟩
  intro o
  show o ∈ os.filter unannotated ↔ _
  rw [List.mem_filter, unannotated_iff]

end Probekit
